import Mathlib

/-!
Verification of the merge-conflict-action repository (src/main.ts).

The development shallowly embeds the TypeScript source: the file-change
data model, the conflict detector `findConflictingFiles`, the paginated
file fetcher `getPRFiles`, the aggregation loop and output/reporting
logic of `run`, and the markdown generator `generateSummary`.  External
collaborators (the GitHub REST API, the comment poster) are modelled as
inputs to `run`; thrown JavaScript values are modelled by `Thrown`,
distinguishing `Error` instances (which carry a message) from any other
thrown value.
-/

namespace MergeConflictAction

/-- The file-change status strings reported by the GitHub API
(`FileChange.status` in src/main.ts). -/
inductive Status where
  | added
  | removed
  | modified
  | renamed
  | copied
  | changed
  | unchanged
deriving DecidableEq, Repr

/-- `FileChange` from src/main.ts: one file touched by a PR. -/
structure FileChange where
  filename : String
  status : Status
deriving DecidableEq, Repr

/-- `ConflictWarning` from src/main.ts: the per-PR conflict record. -/
structure ConflictWarning where
  prNumber : Nat
  prTitle : String
  conflictingFiles : List String
deriving DecidableEq, Repr

/-- Decides `f.status === 'modified' || f.status === 'removed'`, the
status test used on both sides of `findConflictingFiles`. -/
def isModifiedOrRemoved (f : FileChange) : Bool :=
  decide (f.status = Status.modified) || decide (f.status = Status.removed)

/-- `findConflictingFiles` from src/main.ts lines 141-151.  The JS
`Set` built from the current PR's modified/removed filenames is
embedded as the list of those filenames, with `Set.has` becoming list
membership (`List.contains`), which decides exactly the same
filename-equality question. -/
def findConflictingFiles (currentPRFiles otherPRFiles : List FileChange) : List String :=
  let currentModifiedFiles :=
    (currentPRFiles.filter (fun f => isModifiedOrRemoved f)).map (fun f => f.filename)
  let otherModifiedFiles :=
    otherPRFiles.filter
      (fun f => isModifiedOrRemoved f && currentModifiedFiles.contains f.filename)
  otherModifiedFiles.map (fun f => f.filename)

/-- The filenames of `files` whose status is modified or removed; the
"trigger set" the detector derives from the current PR's list. -/
def modRemNames (files : List FileChange) : List String :=
  (files.filter (fun f => isModifiedOrRemoved f)).map (fun f => f.filename)

/-- The filter predicate applied to the other PR's entries inside
`findConflictingFiles`: modified-or-removed and present in the current
PR's modified/removed filename set. -/
def conflictPred (currentPRFiles : List FileChange) (f : FileChange) : Bool :=
  isModifiedOrRemoved f && (modRemNames currentPRFiles).contains f.filename

/-- Fuel-indexed embedding of the `while (true)` pagination loop of
`getPRFiles` (src/main.ts lines 111-139), generalized over the start
page.  `api p` is the `data` array returned by `pulls.listFiles` for
page number `p` (the source always requests `per_page = 100`).  `none`
means the loop did not finish within `fuel` iterations; a
`some (pages, files)` result records the page numbers requested, in
request order, together with the concatenated file list the source
accumulates in `files`. -/
def getPRFilesAux (api : Nat → List FileChange) :
    Nat → Nat → Option (List Nat × List FileChange)
  | 0, _ => none
  | fuel + 1, page =>
    let data := api page
    if data.length < 100 then some ([page], data)
    else
      match getPRFilesAux api fuel (page + 1) with
      | none => none
      | some (ps, fs) => some (page :: ps, data ++ fs)

/-- `getPRFiles` from src/main.ts: the pagination loop started at
`page = 1`. -/
def getPRFiles (api : Nat → List FileChange) (fuel : Nat) :
    Option (List Nat × List FileChange) :=
  getPRFilesAux api fuel 1

/-- A concrete two-page API response: page 1 holds exactly 100 items,
every later page holds one item. -/
def pageAPIExample (p : Nat) : List FileChange :=
  if p = 1 then List.replicate 100 ⟨"f.ts", Status.modified⟩
  else [⟨"g.ts", Status.modified⟩]

/-- A thrown JavaScript value as seen by the `catch` blocks in
src/main.ts: either an `Error` instance carrying a message, or any
other value (for which `error instanceof Error` is false). -/
inductive Thrown where
  | err (msg : String)
  | nonError
deriving DecidableEq, Repr

/-- The fields of an entry of `pulls.list` that `run` reads: `number`,
`title` and `draft`. -/
structure PRInfo where
  number : Nat
  title : String
  draft : Bool
deriving DecidableEq, Repr

/-- The warning text `run` emits for one conflicting PR (src/main.ts
line 68). -/
def conflictWarningMsg (pr : PRInfo) (conflictingFiles : List String) : String :=
  "PR #" ++ toString pr.number ++ " may have conflicts: " ++
    toString conflictingFiles.length ++ " overlapping files"

/-- The `for (const pr of prs)` aggregation loop of `run` (src/main.ts
lines 54-76).  The first component collects the `core.warning` texts
emitted before the loop returned or threw; the second is either the
value a file fetch threw or the final `conflictWarnings` array. -/
def aggregatePRs (currentNumber : Nat) (currentFiles : List FileChange)
    (includeDrafts : Bool) (fetch : Nat → Except Thrown (List FileChange)) :
    List PRInfo → List String × Except Thrown (List ConflictWarning)
  | [] => ([], Except.ok [])
  | pr :: rest =>
    if pr.number = currentNumber then
      aggregatePRs currentNumber currentFiles includeDrafts fetch rest
    else if pr.draft && !includeDrafts then
      aggregatePRs currentNumber currentFiles includeDrafts fetch rest
    else
      match fetch pr.number with
      | Except.error t => ([], Except.error t)
      | Except.ok otherPRChangedFiles =>
        let conflictingFiles := findConflictingFiles currentFiles otherPRChangedFiles
        if conflictingFiles.length > 0 then
          let res := aggregatePRs currentNumber currentFiles includeDrafts fetch rest
          (conflictWarningMsg pr conflictingFiles :: res.1,
            match res.2 with
            | Except.error t => Except.error t
            | Except.ok l => Except.ok (⟨pr.number, pr.title, conflictingFiles⟩ :: l))
        else
          aggregatePRs currentNumber currentFiles includeDrafts fetch rest

/-- Lowercase hexadecimal digit, as used by `JSON.stringify` when
escaping control characters. -/
def hexDigit (n : Nat) : Char :=
  if n < 10 then Char.ofNat (48 + n) else Char.ofNat (87 + n)

/-- `JSON.stringify` escaping of one character inside a string
literal. -/
def jsonEscapeChar (c : Char) : String :=
  if c = '"' then "\\\""
  else if c = '\\' then "\\\\"
  else if c = '\x08' then "\\b"
  else if c = '\x0c' then "\\f"
  else if c = '\n' then "\\n"
  else if c = '\r' then "\\r"
  else if c = '\t' then "\\t"
  else if c.toNat < 32 then
    "\\u00" ++ String.singleton (hexDigit (c.toNat / 16)) ++
      String.singleton (hexDigit (c.toNat % 16))
  else String.singleton c

/-- `JSON.stringify` of a string. -/
def jsonString (s : String) : String :=
  "\"" ++ String.join (s.toList.map jsonEscapeChar) ++ "\""

/-- `JSON.stringify` of an array of strings. -/
def jsonStringArray (l : List String) : String :=
  "[" ++ String.intercalate "," (l.map jsonString) ++ "]"

/-- `JSON.stringify` of one `ConflictWarning` object. -/
def jsonConflictWarning (w : ConflictWarning) : String :=
  "\x7b\"prNumber\":" ++ toString w.prNumber ++ ",\"prTitle\":" ++ jsonString w.prTitle ++
    ",\"conflictingFiles\":" ++ jsonStringArray w.conflictingFiles ++ "\x7d"

/-- `JSON.stringify(conflictWarnings)` as called on src/main.ts
line 81. -/
def jsonStringify (warnings : List ConflictWarning) : String :=
  "[" ++ String.intercalate "," (warnings.map jsonConflictWarning) ++ "]"

/-- The body of the `for (const warning of warnings)` loop of
`generateSummary` (src/main.ts lines 157-170) as a function of the
`summary` accumulator, with the inner `for` loop over
`conflictingFiles.slice(0, 10)` embedded as a left fold. -/
def summaryBlockStep (summary : String) (warning : ConflictWarning) : String :=
  let summary := summary ++ "### PR #" ++ toString warning.prNumber ++ ": " ++
    warning.prTitle ++ "\n"
  let summary := summary ++ "**Overlapping files (" ++
    toString warning.conflictingFiles.length ++ "):**\n"
  let summary := (warning.conflictingFiles.take 10).foldl
    (fun summary file => summary ++ "- `" ++ file ++ "`\n") summary
  let summary := if warning.conflictingFiles.length > 10 then
      summary ++ "- ... and " ++ toString (warning.conflictingFiles.length - 10) ++ " more\n"
    else summary
  summary ++ "\n"

/-- `generateSummary` from src/main.ts lines 153-176, with the
`summary +=` loop embedded as a left fold of `summaryBlockStep`. -/
def generateSummary (warnings : List ConflictWarning) : String :=
  let summary := "## Potential Merge Conflicts Detected\n\n"
  let summary := summary ++
    "The following PRs modify the same files and may have conflicts when this PR is merged:\n\n"
  let summary := warnings.foldl summaryBlockStep summary
  summary ++
    "> **Note:** This is a heuristic check based on file overlap. Actual merge conflicts may or may not occur.\n"

/-- The fixed opening of the summary document. -/
def summaryHeader : String :=
  "## Potential Merge Conflicts Detected\n\n" ++
    "The following PRs modify the same files and may have conflicts when this PR is merged:\n\n"

/-- The fixed closing note of the summary document. -/
def summaryNote : String :=
  "> **Note:** This is a heuristic check based on file overlap. Actual merge conflicts may or may not occur.\n"

/-- Modelled from the spec (section 6): the per-record block of the
summary document — the PR number and title heading, the
overlapping-file count line, the first `min(k, 10)` conflicting
filenames as bullet lines in detector-output order, a
`... and <k-10> more` line exactly when `k > 10`, and a trailing blank
line. -/
def recordBlock (w : ConflictWarning) : String :=
  "### PR #" ++ toString w.prNumber ++ ": " ++ w.prTitle ++ "\n" ++
    ("**Overlapping files (" ++ toString w.conflictingFiles.length ++ "):**\n") ++
    String.join ((w.conflictingFiles.take 10).map (fun file => "- `" ++ file ++ "`\n")) ++
    (if w.conflictingFiles.length > 10 then
      "- ... and " ++ toString (w.conflictingFiles.length - 10) ++ " more\n"
    else "") ++
    "\n"

/-- The `error.message.includes(...)` test from src/main.ts line 91:
substring containment on strings. -/
def containsSubstring (s pat : String) : Bool :=
  (List.range (s.toList.length + 1)).any (fun i => pat.toList.isPrefixOf (s.toList.drop i))

/-- The external collaborators and configuration `run` consumes: the
two boolean inputs, the `pull_request` payload (its number, when
present), the result of the single `pulls.list` call, the result of
each per-PR file fetch, and the result of the `createComment` call. -/
structure Env where
  includeDrafts : Bool
  postComments : Bool
  payloadPR : Option Nat
  listPRs : Except Thrown (List PRInfo)
  fetchFiles : Nat → Except Thrown (List FileChange)
  postComment : Except Thrown Unit

/-- The observable final state of one run: the `core.setFailed`
message if any, the three `core.setOutput` values (`none` = never
set), the summary document written via `core.summary` (`none` = never
written), and the `core.warning` texts in emission order. -/
structure RunState where
  failedMsg : Option String
  hasConflictsOut : Option String
  conflictCountOut : Option Nat
  conflictsOut : Option String
  summaryOut : Option String
  warningLog : List String
deriving DecidableEq, Repr

/-- Terminal state of a run that hit `core.setFailed`: no outputs were
set. -/
def failedRun (msg : String) (warnings : List String) : RunState :=
  { failedMsg := some msg, hasConflictsOut := none, conflictCountOut := none,
    conflictsOut := none, summaryOut := none, warningLog := warnings }

/-- Terminal state of a run whose thrown value was not an `Error`: the
top-level catch does nothing, so the run ends unfailed with no outputs
set. -/
def swallowedRun (warnings : List String) : RunState :=
  { failedMsg := none, hasConflictsOut := none, conflictCountOut := none,
    conflictsOut := none, summaryOut := none, warningLog := warnings }

/-- State after the `conflictWarnings.length > 0` branch set its
outputs and wrote the summary (src/main.ts lines 78-84). -/
def conflictOutputsRun (conflictWarnings : List ConflictWarning)
    (warnings : List String) : RunState :=
  { failedMsg := none,
    hasConflictsOut := some "true",
    conflictCountOut := some conflictWarnings.length,
    conflictsOut := some (jsonStringify conflictWarnings),
    summaryOut := some (generateSummary conflictWarnings),
    warningLog := warnings }

/-- State after the empty branch (src/main.ts lines 101-105). -/
def noConflictRun (warnings : List String) : RunState :=
  { failedMsg := none, hasConflictsOut := some "false", conflictCountOut := some 0,
    conflictsOut := none, summaryOut := none, warningLog := warnings }

/-- The permission warning of src/main.ts line 92. -/
def permissionWarning : String :=
  "Insufficient permissions to post comment. Add \"pull-requests: write\" permission."

/-- `run` from src/main.ts lines 22-109, as a function of its external
collaborators.  Observability-only `core.debug`/`core.info` calls are
not part of the observable state and are omitted. -/
def run (env : Env) : RunState :=
  match env.payloadPR with
  | none => failedRun "This action must be triggered by a pull_request event" []
  | some currentPRNumber =>
    match env.fetchFiles currentPRNumber with
    | Except.error (Thrown.err m) => failedRun m []
    | Except.error Thrown.nonError => swallowedRun []
    | Except.ok currentPRChangedFiles =>
      match env.listPRs with
      | Except.error (Thrown.err m) => failedRun m []
      | Except.error Thrown.nonError => swallowedRun []
      | Except.ok prs =>
        match aggregatePRs currentPRNumber currentPRChangedFiles env.includeDrafts
            env.fetchFiles prs with
        | (ws, Except.error (Thrown.err m)) => failedRun m ws
        | (ws, Except.error Thrown.nonError) => swallowedRun ws
        | (ws, Except.ok conflictWarnings) =>
          if conflictWarnings.length > 0 then
            let base := conflictOutputsRun conflictWarnings ws
            if env.postComments then
              match env.postComment with
              | Except.ok _ => base
              | Except.error (Thrown.err m) =>
                if containsSubstring m "Resource not accessible by integration" then
                  { base with warningLog := ws ++ [permissionWarning] }
                else
                  { base with warningLog := ws ++ ["Failed to post comment: " ++ m] }
              | Except.error Thrown.nonError => base
            else base
          else
            noConflictRun ws

/-- A concrete environment: the current PR is #1, one other open
non-draft PR #2 shares `shared.ts` as modified, and comment posting is
enabled but rejected with a permission error. -/
def envExample : Env :=
  { includeDrafts := false,
    postComments := true,
    payloadPR := some 1,
    listPRs := Except.ok [⟨2, "Other PR", false⟩],
    fetchFiles := fun _ => Except.ok [⟨"shared.ts", Status.modified⟩],
    postComment := Except.error (Thrown.err "Resource not accessible by integration") }

/-- A concrete environment whose payload carries no pull request. -/
def envNoPR : Env :=
  { envExample with payloadPR := none }

/-- A concrete environment whose file fetches throw an `Error`. -/
def envFetchError : Env :=
  { envExample with fetchFiles := fun _ => Except.error (Thrown.err "API rate limit exceeded") }

/-- A concrete environment whose file fetches throw a non-`Error`
value. -/
def envFetchNonError : Env :=
  { envExample with fetchFiles := fun _ => Except.error Thrown.nonError }

theorem findConflictingFiles_eq (A B : List FileChange) :
    findConflictingFiles A B = (B.filter (conflictPred A)).map (fun f => f.filename) := by
  rfl

theorem isModifiedOrRemoved_iff (f : FileChange) :
    isModifiedOrRemoved f = true ↔ (f.status = Status.modified ∨ f.status = Status.removed) := by
  simp [isModifiedOrRemoved]

theorem mem_modRemNames (files : List FileChange) (n : String) :
    n ∈ modRemNames files ↔
      ∃ f ∈ files, f.filename = n ∧ (f.status = Status.modified ∨ f.status = Status.removed) := by
  simp only [modRemNames, List.mem_map, List.mem_filter, isModifiedOrRemoved_iff]
  constructor
  · rintro ⟨f, ⟨hf, hs⟩, hn⟩
    exact ⟨f, hf, hn, hs⟩
  · rintro ⟨f, hf, hn, hs⟩
    exact ⟨f, ⟨hf, hs⟩, hn⟩

theorem mem_findConflictingFiles (A B : List FileChange) (n : String) :
    n ∈ findConflictingFiles A B ↔ n ∈ modRemNames A ∧ n ∈ modRemNames B := by
  simp only [findConflictingFiles_eq, List.mem_map, List.mem_filter, conflictPred,
    Bool.and_eq_true, List.elem_iff]
  constructor
  · rintro ⟨f, ⟨hf, hs, hc⟩, hn⟩
    subst hn
    refine ⟨hc, ?_⟩
    exact (mem_modRemNames B f.filename).mpr ⟨f, hf, rfl, (isModifiedOrRemoved_iff f).mp hs⟩
  · rintro ⟨hA, hB⟩
    obtain ⟨f, hf, hn, hs⟩ := (mem_modRemNames B n).mp hB
    subst hn
    exact ⟨f, ⟨hf, (isModifiedOrRemoved_iff f).mpr hs, hA⟩, rfl⟩

theorem findConflictingFiles_append (A B1 B2 : List FileChange) :
    findConflictingFiles A (B1 ++ B2) =
      findConflictingFiles A B1 ++ findConflictingFiles A B2 := by
  simp [findConflictingFiles_eq, List.filter_append]

theorem findConflictingFiles_singleton (A : List FileChange) (f : FileChange)
    (hf : conflictPred A f = true) :
    findConflictingFiles A [f] = [f.filename] := by
  simp [findConflictingFiles_eq, List.filter, hf]

/-- C1: `findConflictingFiles A B` is a subsequence of the filenames of
`B`; every returned filename occurs in `A` with status modified or
removed and in `B` with status modified or removed; and the result is
empty when `A` or `B` is empty or when no modified/removed filename is
shared. -/
theorem detect_subseq_and_sound (A B : List FileChange) :
    (findConflictingFiles A B).Sublist (B.map (fun f => f.filename)) ∧
    (∀ n ∈ findConflictingFiles A B,
      (∃ f ∈ A, f.filename = n ∧ (f.status = Status.modified ∨ f.status = Status.removed)) ∧
      (∃ f ∈ B, f.filename = n ∧ (f.status = Status.modified ∨ f.status = Status.removed))) ∧
    (A = [] → findConflictingFiles A B = []) ∧
    (B = [] → findConflictingFiles A B = []) ∧
    ((¬ ∃ n, n ∈ modRemNames A ∧ n ∈ modRemNames B) → findConflictingFiles A B = []) := by
  refine ⟨?_, ?_, ?_, ?_, ?_⟩
  · rw [findConflictingFiles_eq]
    exact (B.filter_sublist).map (fun f => f.filename)
  · intro n hn
    obtain ⟨hA, hB⟩ := (mem_findConflictingFiles A B n).mp hn
    exact ⟨(mem_modRemNames A n).mp hA, (mem_modRemNames B n).mp hB⟩
  · rintro rfl
    rw [List.eq_nil_iff_forall_not_mem]
    intro n hn
    obtain ⟨hA, _⟩ := (mem_findConflictingFiles [] B n).mp hn
    simp [modRemNames] at hA
  · rintro rfl
    rfl
  · intro hshared
    rw [List.eq_nil_iff_forall_not_mem]
    intro n hn
    exact hshared ⟨n, (mem_findConflictingFiles A B n).mp hn⟩

/-- Witness for C1 at a concrete input: the current PR modifies
`shared.ts` and adds `file2.ts`; the other PR modifies `shared.ts`. -/
theorem detect_subseq_and_sound_witness :
    ([⟨"shared.ts", Status.modified⟩, ⟨"file2.ts", Status.added⟩] : List FileChange) = [] →
      findConflictingFiles [⟨"shared.ts", Status.modified⟩, ⟨"file2.ts", Status.added⟩]
        [⟨"shared.ts", Status.modified⟩] = [] :=
  (detect_subseq_and_sound [⟨"shared.ts", Status.modified⟩, ⟨"file2.ts", Status.added⟩]
    [⟨"shared.ts", Status.modified⟩]).2.2.1

/-- C2: the detector preserves the relative order of `B`'s entries and
performs no deduplication: if `B` contains two conflicting entries with
the same filename, that filename appears twice in the result, in the
positions corresponding to `B`'s order. -/
theorem detect_order_preserving_no_dedup (A B1 B2 B3 : List FileChange) (f g : FileChange)
    (hf : conflictPred A f = true) (hg : conflictPred A g = true)
    (hfg : f.filename = g.filename) :
    findConflictingFiles A (B1 ++ f :: B2 ++ g :: B3) =
      findConflictingFiles A B1 ++
        f.filename :: (findConflictingFiles A B2 ++ f.filename :: findConflictingFiles A B3) := by
  have h1 : B1 ++ f :: B2 ++ g :: B3 = B1 ++ ([f] ++ (B2 ++ ([g] ++ B3))) := by
    simp
  rw [h1, findConflictingFiles_append, findConflictingFiles_append,
    findConflictingFiles_append, findConflictingFiles_append,
    findConflictingFiles_singleton A f hf, findConflictingFiles_singleton A g hg, hfg]
  simp

/-- Witness for C2 at a concrete input: the other PR lists `shared.ts`
as modified twice; the result lists it twice. -/
theorem detect_order_preserving_no_dedup_witness :
    findConflictingFiles [⟨"shared.ts", Status.modified⟩]
      ([] ++ ⟨"shared.ts", Status.modified⟩ :: [] ++ ⟨"shared.ts", Status.removed⟩ :: []) =
      findConflictingFiles [⟨"shared.ts", Status.modified⟩] [] ++
        "shared.ts" :: (findConflictingFiles [⟨"shared.ts", Status.modified⟩] [] ++
          "shared.ts" :: findConflictingFiles [⟨"shared.ts", Status.modified⟩] []) :=
  detect_order_preserving_no_dedup [⟨"shared.ts", Status.modified⟩] [] [] []
    ⟨"shared.ts", Status.modified⟩ ⟨"shared.ts", Status.removed⟩
    (by decide) (by decide) rfl

/-- C9: the detector depends on the current PR's list only through its
set of modified/removed filenames. -/
theorem detect_depends_only_on_modrem_set (A A' B : List FileChange)
    (h : ∀ n, n ∈ modRemNames A ↔ n ∈ modRemNames A') :
    findConflictingFiles A B = findConflictingFiles A' B := by
  rw [findConflictingFiles_eq, findConflictingFiles_eq]
  congr 1
  apply List.filter_congr
  intro f _
  simp only [conflictPred]
  congr 1
  rw [Bool.eq_iff_iff]
  simpa [List.contains, List.elem_iff] using h f.filename

/-- Witness for C9 at a concrete input: a permuted, duplicated current
list with an extra added-status entry yields the same result. -/
theorem detect_depends_only_on_modrem_set_witness :
    findConflictingFiles
      [⟨"a.ts", Status.modified⟩, ⟨"b.ts", Status.removed⟩]
      [⟨"b.ts", Status.modified⟩, ⟨"a.ts", Status.removed⟩] =
    findConflictingFiles
      [⟨"b.ts", Status.removed⟩, ⟨"new.ts", Status.added⟩, ⟨"a.ts", Status.modified⟩,
        ⟨"a.ts", Status.modified⟩]
      [⟨"b.ts", Status.modified⟩, ⟨"a.ts", Status.removed⟩] :=
  detect_depends_only_on_modrem_set
    [⟨"a.ts", Status.modified⟩, ⟨"b.ts", Status.removed⟩]
    [⟨"b.ts", Status.removed⟩, ⟨"new.ts", Status.added⟩, ⟨"a.ts", Status.modified⟩,
      ⟨"a.ts", Status.modified⟩]
    [⟨"b.ts", Status.modified⟩, ⟨"a.ts", Status.removed⟩]
    (by
      intro n
      have h1 : modRemNames [⟨"a.ts", Status.modified⟩, ⟨"b.ts", Status.removed⟩] =
          ["a.ts", "b.ts"] := rfl
      have h2 : modRemNames [⟨"b.ts", Status.removed⟩, ⟨"new.ts", Status.added⟩,
          ⟨"a.ts", Status.modified⟩, ⟨"a.ts", Status.modified⟩] =
          ["b.ts", "a.ts", "a.ts"] := rfl
      rw [h1, h2]
      simp only [List.mem_cons, List.not_mem_nil, or_false]
      tauto)

theorem getPRFilesAux_spec (api : Nat → List FileChange) :
    ∀ (fuel p : Nat) (ps : List Nat) (fs : List FileChange),
      getPRFilesAux api fuel p = some (ps, fs) →
      ∃ k, ps = List.range' p (k + 1) ∧
        (∀ q, p ≤ q → q < p + k → ¬((api q).length < 100)) ∧
        (api (p + k)).length < 100 ∧
        fs = ((List.range' p (k + 1)).map api).flatten := by
  intro fuel
  induction fuel with
  | zero => intro p ps fs h; simp [getPRFilesAux] at h
  | succ fuel ih =>
    intro p ps fs h
    rw [getPRFilesAux] at h
    by_cases hlen : (api p).length < 100
    · rw [if_pos hlen] at h
      obtain ⟨h1, h2⟩ := Prod.mk.injEq .. ▸ Option.some.injEq .. ▸ h
      refine ⟨0, ?_, ?_, ?_, ?_⟩
      · rw [← h1]; rfl
      · intro q hq1 hq2; omega
      · simpa using hlen
      · rw [← h2]; simp
    · rw [if_neg hlen] at h
      cases hrec : getPRFilesAux api fuel (p + 1) with
      | none => rw [hrec] at h; simp at h
      | some res =>
        obtain ⟨ps', fs'⟩ := res
        rw [hrec] at h
        simp only [Option.some.injEq, Prod.mk.injEq] at h
        obtain ⟨h1, h2⟩ := h
        obtain ⟨k', hps', hmid', hlast', hfs'⟩ := ih (p + 1) ps' fs' hrec
        refine ⟨k' + 1, ?_, ?_, ?_, ?_⟩
        · rw [← h1, hps']
          simp [List.range'_succ]
        · intro q hq1 hq2
          rcases Nat.eq_or_lt_of_le hq1 with hq | hq
          · rw [← hq]; exact hlen
          · exact hmid' q hq (by omega)
        · have : p + (k' + 1) = p + 1 + k' := by omega
          rw [this]; exact hlast'
        · rw [← h2, hfs']
          simp [List.range'_succ]

/-- C7: for every API page function whose pages hold at most 100 items
(the requested page size), a terminating run of the fetcher requested
exactly the consecutive pages `1, ..., k+1`, every page before the
last held exactly 100 items (so a first page of exactly 100 items
forces a second request), the last page held fewer than 100, and the
result is the concatenation of all pages in request order, with no
deduplication. -/
theorem getPRFiles_pagination (api : Nat → List FileChange) (fuel : Nat)
    (ps : List Nat) (fs : List FileChange)
    (hbound : ∀ p, (api p).length ≤ 100)
    (h : getPRFiles api fuel = some (ps, fs)) :
    ∃ k, ps = List.range' 1 (k + 1) ∧
      (∀ q, 1 ≤ q → q ≤ k → (api q).length = 100) ∧
      (api (k + 1)).length < 100 ∧
      fs = ((List.range' 1 (k + 1)).map api).flatten ∧
      ((api 1).length = 100 → 2 ∈ ps) := by
  obtain ⟨k, hps, hmid, hlast, hfs⟩ := getPRFilesAux_spec api fuel 1 ps fs h
  have hk1 : 1 + k = k + 1 := by omega
  refine ⟨k, hps, ?_, hk1 ▸ hlast, hfs, ?_⟩
  · intro q hq1 hq2
    have := hmid q hq1 (by omega)
    have := hbound q
    omega
  · intro h100
    have hk : 0 < k := by
      rcases Nat.eq_zero_or_pos k with hk0 | hk0
      · subst hk0
        simp only [Nat.add_zero] at hlast
        omega
      · exact hk0
    rw [hps, List.mem_range']
    exact ⟨1, by omega, by omega⟩

/-- Witness for C7 at a concrete input: page 1 of `pageAPIExample`
holds exactly 100 items, so page 2 is requested; the fetcher stops
there and returns both pages concatenated. -/
theorem getPRFiles_pagination_witness :
    ∃ k, ([1, 2] : List Nat) = List.range' 1 (k + 1) ∧
      (∀ q, 1 ≤ q → q ≤ k → (pageAPIExample q).length = 100) ∧
      (pageAPIExample (k + 1)).length < 100 ∧
      (List.replicate 100 (⟨"f.ts", Status.modified⟩ : FileChange) ++
          [⟨"g.ts", Status.modified⟩]) =
        ((List.range' 1 (k + 1)).map pageAPIExample).flatten ∧
      ((pageAPIExample 1).length = 100 → 2 ∈ ([1, 2] : List Nat)) :=
  getPRFiles_pagination pageAPIExample 3 [1, 2]
    (List.replicate 100 ⟨"f.ts", Status.modified⟩ ++ [⟨"g.ts", Status.modified⟩])
    (by
      intro p
      by_cases hp : p = 1 <;> simp [pageAPIExample, hp])
    (by rfl)

theorem aggregatePRs_ok_mem (cn : Nat) (cf : List FileChange) (b : Bool)
    (fetch : Nat → Except Thrown (List FileChange)) :
    ∀ (prs : List PRInfo) (l : List ConflictWarning),
      (aggregatePRs cn cf b fetch prs).2 = Except.ok l →
      ∀ w ∈ l, ∃ pr ∈ prs, pr.number ≠ cn ∧ (b = false → pr.draft = false) ∧
        pr.number = w.prNumber ∧ pr.title = w.prTitle := by
  intro prs
  induction prs with
  | nil =>
    intro l h w hw
    simp only [aggregatePRs] at h
    obtain rfl : ([] : List ConflictWarning) = l := by simpa using h
    simp at hw
  | cons pr rest ih =>
    intro l h w hw
    simp only [aggregatePRs] at h
    by_cases h1 : pr.number = cn
    · rw [if_pos h1] at h
      obtain ⟨pr', hpr', hp⟩ := ih l h w hw
      exact ⟨pr', List.mem_cons_of_mem pr hpr', hp⟩
    · rw [if_neg h1] at h
      by_cases h2 : (pr.draft && !b) = true
      · rw [if_pos h2] at h
        obtain ⟨pr', hpr', hp⟩ := ih l h w hw
        exact ⟨pr', List.mem_cons_of_mem pr hpr', hp⟩
      · rw [if_neg h2] at h
        cases hf : fetch pr.number with
        | error t =>
          simp only [hf] at h
          exact Except.noConfusion h
        | ok files =>
          simp only [hf] at h
          by_cases h3 : (findConflictingFiles cf files).length > 0
          · rw [if_pos h3] at h
            cases hrec : (aggregatePRs cn cf b fetch rest).2 with
            | error t =>
              simp only [hrec] at h
              exact Except.noConfusion h
            | ok l' =>
              simp only [hrec, Except.ok.injEq] at h
              rw [← h] at hw
              cases hw with
              | head =>
                refine ⟨pr, List.mem_cons_self pr rest, h1, ?_, rfl, rfl⟩
                intro hb
                subst hb
                simpa using h2
              | tail _ hw' =>
                obtain ⟨pr', hpr', hp⟩ := ih l' hrec w hw'
                exact ⟨pr', List.mem_cons_of_mem pr hpr', hp⟩
          · rw [if_neg h3] at h
            obtain ⟨pr', hpr', hp⟩ := ih l h w hw
            exact ⟨pr', List.mem_cons_of_mem pr hpr', hp⟩

theorem aggregatePRs_monotone (cn : Nat) (cf : List FileChange)
    (fetch : Nat → Except Thrown (List FileChange)) :
    ∀ (prs : List PRInfo) (lf lt : List ConflictWarning),
      (aggregatePRs cn cf false fetch prs).2 = Except.ok lf →
      (aggregatePRs cn cf true fetch prs).2 = Except.ok lt →
      lf.Sublist lt := by
  intro prs
  induction prs with
  | nil =>
    intro lf lt hf ht
    simp only [aggregatePRs] at hf ht
    obtain rfl : ([] : List ConflictWarning) = lf := by simpa using hf
    exact List.nil_sublist lt
  | cons pr rest ih =>
    intro lf lt hf ht
    simp only [aggregatePRs] at hf ht
    by_cases h1 : pr.number = cn
    · rw [if_pos h1] at hf ht
      exact ih lf lt hf ht
    · rw [if_neg h1] at hf ht
      by_cases hd : pr.draft = true
      · have hcf : (pr.draft && !false) = true := by simp [hd]
        rw [if_pos hcf] at hf
        rw [if_neg (by simp)] at ht
        cases hfetch : fetch pr.number with
        | error t =>
          simp only [hfetch] at ht
          exact Except.noConfusion ht
        | ok files =>
          simp only [hfetch] at ht
          by_cases h3 : (findConflictingFiles cf files).length > 0
          · rw [if_pos h3] at ht
            cases hrec : (aggregatePRs cn cf true fetch rest).2 with
            | error t =>
              simp only [hrec] at ht
              exact Except.noConfusion ht
            | ok l' =>
              simp only [hrec, Except.ok.injEq] at ht
              rw [← ht]
              exact (ih lf l' hf hrec).cons _
          · rw [if_neg h3] at ht
            exact ih lf lt hf ht
      · have hdf : pr.draft = false := by
          cases hpd : pr.draft
          · rfl
          · exact absurd hpd hd
        rw [if_neg (by simp [hdf])] at hf
        rw [if_neg (by simp [hdf])] at ht
        cases hfetch : fetch pr.number with
        | error t =>
          simp only [hfetch] at hf
          exact Except.noConfusion hf
        | ok files =>
          simp only [hfetch] at hf ht
          by_cases h3 : (findConflictingFiles cf files).length > 0
          · rw [if_pos h3] at hf ht
            cases hrecf : (aggregatePRs cn cf false fetch rest).2 with
            | error t =>
              simp only [hrecf] at hf
              exact Except.noConfusion hf
            | ok lf' =>
              cases hrect : (aggregatePRs cn cf true fetch rest).2 with
              | error t =>
                simp only [hrect] at ht
                exact Except.noConfusion ht
              | ok lt' =>
                simp only [hrecf, Except.ok.injEq] at hf
                simp only [hrect, Except.ok.injEq] at ht
                rw [← hf, ← ht]
                exact (ih lf' lt' hrecf hrect).cons₂ _
          · rw [if_neg h3] at hf ht
            exact ih lf lt hf ht

/-- C3: the aggregation loop never produces a conflict record for the
current PR (skipped by number equality), never produces one for a
draft PR when include-drafts is false, and for fixed inputs the record
sequence with include-drafts true contains every record produced with
include-drafts false, in order and unaltered (a sublist). -/
theorem aggregation_excludes_self_drafts_monotone (cn : Nat) (cf : List FileChange)
    (fetch : Nat → Except Thrown (List FileChange)) (prs : List PRInfo) :
    (∀ (b : Bool) (l : List ConflictWarning),
      (aggregatePRs cn cf b fetch prs).2 = Except.ok l →
      ∀ w ∈ l, w.prNumber ≠ cn) ∧
    (∀ l, (aggregatePRs cn cf false fetch prs).2 = Except.ok l →
      ∀ w ∈ l, ∃ pr ∈ prs, pr.draft = false ∧ pr.number = w.prNumber ∧
        pr.title = w.prTitle) ∧
    (∀ lf lt, (aggregatePRs cn cf false fetch prs).2 = Except.ok lf →
      (aggregatePRs cn cf true fetch prs).2 = Except.ok lt →
      lf.Sublist lt) := by
  refine ⟨?_, ?_, fun lf lt hf ht => aggregatePRs_monotone cn cf fetch prs lf lt hf ht⟩
  · intro b l h w hw
    obtain ⟨pr, _, hne, _, hnum, _⟩ := aggregatePRs_ok_mem cn cf b fetch prs l h w hw
    rw [← hnum]
    exact hne
  · intro l h w hw
    obtain ⟨pr, hpr, hne, hdraft, hnum, htitle⟩ :=
      aggregatePRs_ok_mem cn cf false fetch prs l h w hw
    exact ⟨pr, hpr, hdraft rfl, hnum, htitle⟩

/-- Witness for C3 at a concrete input: with a draft PR #3 and a
non-draft PR #2 both overlapping, the records produced with
include-drafts false form a sublist of those produced with
include-drafts true. -/
theorem aggregation_excludes_self_drafts_monotone_witness :
    ([⟨2, "t", ["a"]⟩] : List ConflictWarning).Sublist
      [⟨2, "t", ["a"]⟩, ⟨3, "d", ["a"]⟩] :=
  (aggregation_excludes_self_drafts_monotone 1 [⟨"a", Status.modified⟩]
      (fun _ => Except.ok [⟨"a", Status.modified⟩])
      [⟨2, "t", false⟩, ⟨3, "d", true⟩]).2.2
    [⟨2, "t", ["a"]⟩] [⟨2, "t", ["a"]⟩, ⟨3, "d", ["a"]⟩] rfl rfl

theorem foldl_append_join : ∀ (l : List String) (acc : String),
    List.foldl (fun r s => r ++ s) acc l = acc ++ String.join l := by
  intro l
  induction l with
  | nil =>
    intro acc
    rw [List.foldl_nil]
    exact (String.append_empty acc).symm
  | cons a l ih =>
    intro acc
    have hj : String.join (a :: l) = a ++ String.join l := by
      show List.foldl (fun r s => r ++ s) ("" ++ a) l = a ++ String.join l
      have h0 : "" ++ a = a := rfl
      rw [h0, ih a]
    rw [List.foldl_cons, ih (acc ++ a), hj, String.append_assoc]

theorem foldl_append_of {α : Type} (f : String → α → String) (g : α → String)
    (hfg : ∀ acc x, f acc x = acc ++ g x) :
    ∀ (l : List α) (acc : String), List.foldl f acc l = acc ++ String.join (l.map g) := by
  intro l
  induction l with
  | nil =>
    intro acc
    rw [List.foldl_nil]
    exact (String.append_empty acc).symm
  | cons a l ih =>
    intro acc
    have hj : String.join (g a :: l.map g) = g a ++ String.join (l.map g) := by
      show List.foldl (fun r s => r ++ s) ("" ++ g a) (l.map g) = _
      have h0 : "" ++ g a = g a := rfl
      rw [h0, foldl_append_join]
    rw [List.foldl_cons, hfg, ih, List.map_cons, hj, String.append_assoc]

theorem summaryBlockStep_eq (acc : String) (w : ConflictWarning) :
    summaryBlockStep acc w = acc ++ recordBlock w := by
  simp only [summaryBlockStep]
  rw [foldl_append_of (fun summary file => summary ++ "- `" ++ file ++ "`\n")
    (fun file => "- `" ++ file ++ "`\n") (by intro a x; simp [String.append_assoc])]
  have hem : ∀ s : String, "" ++ s = s := fun s => rfl
  by_cases h10 : w.conflictingFiles.length > 10
  · rw [if_pos h10]
    simp only [recordBlock, if_pos h10]
    simp only [String.append_assoc, hem]
  · rw [if_neg h10]
    simp only [recordBlock, if_neg h10]
    simp only [String.append_assoc, hem]

theorem generateSummary_structure (warnings : List ConflictWarning) :
    generateSummary warnings =
      summaryHeader ++ String.join (warnings.map recordBlock) ++ summaryNote := by
  simp only [generateSummary]
  rw [foldl_append_of summaryBlockStep recordBlock summaryBlockStep_eq]
  simp only [summaryHeader, summaryNote, String.append_assoc]

theorem run_eq_of_ok (env : Env) (n : Nat) (files : List FileChange)
    (prs : List PRInfo) (ws : List String) (cw : List ConflictWarning)
    (hp : env.payloadPR = some n) (hf : env.fetchFiles n = Except.ok files)
    (hl : env.listPRs = Except.ok prs)
    (ha : aggregatePRs n files env.includeDrafts env.fetchFiles prs =
      (ws, Except.ok cw)) :
    run env =
      if cw.length > 0 then
        if env.postComments then
          match env.postComment with
          | Except.ok _ => conflictOutputsRun cw ws
          | Except.error (Thrown.err m) =>
            if containsSubstring m "Resource not accessible by integration" then
              { conflictOutputsRun cw ws with warningLog := ws ++ [permissionWarning] }
            else
              { conflictOutputsRun cw ws with
                  warningLog := ws ++ ["Failed to post comment: " ++ m] }
          | Except.error Thrown.nonError => conflictOutputsRun cw ws
        else conflictOutputsRun cw ws
      else noConflictRun ws := by
  simp only [run, hp, hf, hl, ha]

/-- C5: a run whose payload carries no pull request fails immediately
with the exact trigger message and sets no outputs; a run in which the
current PR's file fetch, the open-PR listing, or a candidate PR's file
fetch throws an `Error` ends failed with the underlying error's
message verbatim and with no outputs set. -/
theorem run_trigger_and_fetch_errors (env : Env) (n : Nat) (m : String) :
    (env.payloadPR = none →
      run env = failedRun "This action must be triggered by a pull_request event" []) ∧
    (env.payloadPR = some n → env.fetchFiles n = Except.error (Thrown.err m) →
      run env = failedRun m []) ∧
    (∀ files, env.payloadPR = some n → env.fetchFiles n = Except.ok files →
      env.listPRs = Except.error (Thrown.err m) → run env = failedRun m []) ∧
    (∀ files prs ws, env.payloadPR = some n → env.fetchFiles n = Except.ok files →
      env.listPRs = Except.ok prs →
      aggregatePRs n files env.includeDrafts env.fetchFiles prs =
        (ws, Except.error (Thrown.err m)) →
      run env = failedRun m ws) ∧
    (∀ msg warnings, (failedRun msg warnings).failedMsg = some msg ∧
      (failedRun msg warnings).hasConflictsOut = none ∧
      (failedRun msg warnings).conflictCountOut = none ∧
      (failedRun msg warnings).conflictsOut = none ∧
      (failedRun msg warnings).summaryOut = none) := by
  refine ⟨?_, ?_, ?_, ?_, ?_⟩
  · intro hp
    simp only [run, hp]
  · intro hp hf
    simp only [run, hp, hf]
  · intro files hp hf hl
    simp only [run, hp, hf, hl]
  · intro files prs ws hp hf hl ha
    simp only [run, hp, hf, hl, ha]
  · intro msg warnings
    exact ⟨rfl, rfl, rfl, rfl, rfl⟩

/-- Witness for C5 at a concrete input: a run whose file fetch throws
`Error("API rate limit exceeded")` fails with that message and no
outputs. -/
theorem run_trigger_and_fetch_errors_witness :
    run envFetchError = failedRun "API rate limit exceeded" [] :=
  (run_trigger_and_fetch_errors envFetchError 1 "API rate limit exceeded").2.1 rfl rfl

/-- C10: a non-`Error` thrown value is ignored by both handlers: if a
file fetch, the PR listing, or a candidate fetch throws a non-`Error`,
the top-level catch completes the run unfailed, with no failure
message reported and no outputs set; if comment posting throws a
non-`Error`, it is swallowed with no warning emitted and the conflict
outputs remain as already set. -/
theorem run_ignores_non_error_throws (env : Env) (n : Nat) :
    (env.payloadPR = some n → env.fetchFiles n = Except.error Thrown.nonError →
      run env = swallowedRun [] ∧ (run env).failedMsg = none) ∧
    (∀ files, env.payloadPR = some n → env.fetchFiles n = Except.ok files →
      env.listPRs = Except.error Thrown.nonError →
      run env = swallowedRun [] ∧ (run env).failedMsg = none) ∧
    (∀ files prs ws, env.payloadPR = some n → env.fetchFiles n = Except.ok files →
      env.listPRs = Except.ok prs →
      aggregatePRs n files env.includeDrafts env.fetchFiles prs =
        (ws, Except.error Thrown.nonError) →
      run env = swallowedRun ws ∧ (run env).failedMsg = none) ∧
    (∀ files prs ws cw, env.payloadPR = some n → env.fetchFiles n = Except.ok files →
      env.listPRs = Except.ok prs →
      aggregatePRs n files env.includeDrafts env.fetchFiles prs = (ws, Except.ok cw) →
      cw.length > 0 → env.postComments = true →
      env.postComment = Except.error Thrown.nonError →
      run env = conflictOutputsRun cw ws) := by
  refine ⟨?_, ?_, ?_, ?_⟩
  · intro hp hf
    have h : run env = swallowedRun [] := by simp only [run, hp, hf]
    exact ⟨h, by rw [h]; rfl⟩
  · intro files hp hf hl
    have h : run env = swallowedRun [] := by simp only [run, hp, hf, hl]
    exact ⟨h, by rw [h]; rfl⟩
  · intro files prs ws hp hf hl ha
    have h : run env = swallowedRun ws := by simp only [run, hp, hf, hl, ha]
    exact ⟨h, by rw [h]; rfl⟩
  · intro files prs ws cw hp hf hl ha hcw hpc hpost
    rw [run_eq_of_ok env n files prs ws cw hp hf hl ha, if_pos hcw, hpc, hpost]
    rfl

/-- Witness for C10 at a concrete input: a run whose file fetch throws
a non-`Error` value completes unfailed with no outputs. -/
theorem run_ignores_non_error_throws_witness :
    run envFetchNonError = swallowedRun [] ∧ (run envFetchNonError).failedMsg = none :=
  (run_ignores_non_error_throws envFetchNonError 1).1 rfl rfl

/-- C4: for every run that reaches the output stage (well-formed
trigger and no fetch/list throw), `has-conflicts` is the string
`"true"` iff `conflict-count` is positive, `conflict-count` equals the
number of conflict records produced, and the `conflicts` output is set
iff the count is positive. -/
theorem run_outputs_consistent (env : Env) (n : Nat) (files : List FileChange)
    (prs : List PRInfo) (ws : List String) (cw : List ConflictWarning)
    (hp : env.payloadPR = some n) (hf : env.fetchFiles n = Except.ok files)
    (hl : env.listPRs = Except.ok prs)
    (ha : aggregatePRs n files env.includeDrafts env.fetchFiles prs =
      (ws, Except.ok cw)) :
    ((run env).hasConflictsOut = some "true" ↔
      ∃ c, (run env).conflictCountOut = some c ∧ 0 < c) ∧
    (run env).conflictCountOut = some cw.length ∧
    ((run env).conflictsOut.isSome ↔ 0 < cw.length) := by
  have hrun := run_eq_of_ok env n files prs ws cw hp hf hl ha
  by_cases hcw : cw.length > 0
  · rw [if_pos hcw] at hrun
    have houts : (run env).hasConflictsOut = some "true" ∧
        (run env).conflictCountOut = some cw.length ∧
        (run env).conflictsOut = some (jsonStringify cw) := by
      rw [hrun]
      split
      · split
        · exact ⟨rfl, rfl, rfl⟩
        · split
          · exact ⟨rfl, rfl, rfl⟩
          · exact ⟨rfl, rfl, rfl⟩
        · exact ⟨rfl, rfl, rfl⟩
      · exact ⟨rfl, rfl, rfl⟩
    refine ⟨?_, houts.2.1, ?_⟩
    · constructor
      · intro _
        exact ⟨cw.length, houts.2.1, hcw⟩
      · intro _
        exact houts.1
    · rw [houts.2.2]
      simp [hcw]
  · rw [if_neg hcw] at hrun
    have h0 : cw.length = 0 := by omega
    refine ⟨?_, ?_, ?_⟩
    · rw [hrun]
      constructor
      · intro h
        exact absurd h (by simp [noConflictRun])
      · rintro ⟨c, hc, hc0⟩
        simp only [noConflictRun, Option.some.injEq] at hc
        omega
    · rw [hrun, h0]
      rfl
    · rw [hrun]
      simp [noConflictRun, h0]

/-- Witness for C4 at a concrete input: one overlapping PR yields
`conflict-count` 1. -/
theorem run_outputs_consistent_witness :
    (run envExample).conflictCountOut =
      some ([⟨2, "Other PR", ["shared.ts"]⟩] : List ConflictWarning).length :=
  (run_outputs_consistent envExample 1 [⟨"shared.ts", Status.modified⟩]
    [⟨2, "Other PR", false⟩] ["PR #2 may have conflicts: 1 overlapping files"]
    [⟨2, "Other PR", ["shared.ts"]⟩] rfl rfl rfl rfl).2.1

/-- C6: if comment posting throws an `Error`, the run still completes
unfailed with the conflict outputs as already set, and emits exactly
one extra warning: the fixed permission warning naming
`"pull-requests: write"` when the message indicates a permission
failure (contains `Resource not accessible by integration`), otherwise
a warning containing the underlying error message. -/
theorem run_post_failure_nonfatal (env : Env) (n : Nat) (files : List FileChange)
    (prs : List PRInfo) (ws : List String) (cw : List ConflictWarning) (m : String)
    (hp : env.payloadPR = some n) (hf : env.fetchFiles n = Except.ok files)
    (hl : env.listPRs = Except.ok prs)
    (ha : aggregatePRs n files env.includeDrafts env.fetchFiles prs =
      (ws, Except.ok cw))
    (hcw : cw.length > 0) (hpc : env.postComments = true)
    (hpost : env.postComment = Except.error (Thrown.err m)) :
    run env = { conflictOutputsRun cw ws with
        warningLog := ws ++
          [if containsSubstring m "Resource not accessible by integration" then
            permissionWarning
          else "Failed to post comment: " ++ m] } ∧
    (run env).failedMsg = none ∧
    (run env).hasConflictsOut = some "true" ∧
    (run env).conflictCountOut = some cw.length ∧
    (run env).conflictsOut = some (jsonStringify cw) ∧
    (run env).summaryOut = some (generateSummary cw) := by
  have hrun := run_eq_of_ok env n files prs ws cw hp hf hl ha
  rw [if_pos hcw, hpc, hpost] at hrun
  have hrun2 : run env =
      if containsSubstring m "Resource not accessible by integration" then
        { conflictOutputsRun cw ws with warningLog := ws ++ [permissionWarning] }
      else
        { conflictOutputsRun cw ws with
            warningLog := ws ++ ["Failed to post comment: " ++ m] } := by
    rw [hrun]
    rfl
  have heq : run env = { conflictOutputsRun cw ws with
      warningLog := ws ++
        [if containsSubstring m "Resource not accessible by integration" then
          permissionWarning
        else "Failed to post comment: " ++ m] } := by
    rw [hrun2]
    by_cases hc : containsSubstring m "Resource not accessible by integration" = true
    · rw [if_pos hc, if_pos hc]
    · rw [if_neg hc, if_neg hc]
  exact ⟨heq, by rw [heq]; rfl, by rw [heq]; rfl, by rw [heq]; rfl,
    by rw [heq]; rfl, by rw [heq]; rfl⟩

/-- Witness for C6 at a concrete input: posting fails with the
permission error message, the run stays unfailed. -/
theorem run_post_failure_nonfatal_witness :
    (run envExample).failedMsg = none :=
  (run_post_failure_nonfatal envExample 1 [⟨"shared.ts", Status.modified⟩]
    [⟨2, "Other PR", false⟩] ["PR #2 may have conflicts: 1 overlapping files"]
    [⟨2, "Other PR", ["shared.ts"]⟩] "Resource not accessible by integration"
    rfl rfl rfl rfl (by decide) rfl rfl).2.1

/-- C8: for every run that reaches the output stage, the summary
document is written iff the conflict count is positive; and the
document is the fixed header, followed for each conflict record by its
block — PR number and title heading, overlapping-file count line, the
first `min(k, 10)` conflicting filenames as bullet lines in
detector-output order, a `... and <k-10> more` line exactly when
`k > 10`, and a blank line — and ends with the fixed heuristic
note. -/
theorem run_summary_written_iff_and_structure (env : Env) (n : Nat)
    (files : List FileChange) (prs : List PRInfo) (ws : List String)
    (cw : List ConflictWarning)
    (hp : env.payloadPR = some n) (hf : env.fetchFiles n = Except.ok files)
    (hl : env.listPRs = Except.ok prs)
    (ha : aggregatePRs n files env.includeDrafts env.fetchFiles prs =
      (ws, Except.ok cw)) :
    ((run env).summaryOut =
      if 0 < cw.length then some (generateSummary cw) else none) ∧
    generateSummary cw =
      summaryHeader ++ String.join (cw.map recordBlock) ++ summaryNote := by
  refine ⟨?_, generateSummary_structure cw⟩
  have hrun := run_eq_of_ok env n files prs ws cw hp hf hl ha
  by_cases hcw : cw.length > 0
  · rw [if_pos hcw] at hrun
    rw [if_pos hcw, hrun]
    split
    · split
      · rfl
      · split
        · rfl
        · rfl
      · rfl
    · rfl
  · rw [if_neg hcw] at hrun
    rw [if_neg hcw, hrun]
    rfl

/-- Witness for C8 at a concrete input: with one conflict record the
summary is written. -/
theorem run_summary_written_iff_and_structure_witness :
    (run envExample).summaryOut =
      if 0 < ([⟨2, "Other PR", ["shared.ts"]⟩] : List ConflictWarning).length then
        some (generateSummary [⟨2, "Other PR", ["shared.ts"]⟩])
      else none :=
  (run_summary_written_iff_and_structure envExample 1 [⟨"shared.ts", Status.modified⟩]
    [⟨2, "Other PR", false⟩] ["PR #2 may have conflicts: 1 overlapping files"]
    [⟨2, "Other PR", ["shared.ts"]⟩] rfl rfl rfl rfl).1

end MergeConflictAction
